import Mathlib

/-!
Shallow embedding of `src/agentic-agent/src/app/page.tsx`: the agent run
loop (`startAgent` / `stopAgent` / `handleSubmit`), the derived log view
(`orderedLogs`), the enum label/class helpers, and the control widgets'
disabled flags.  The agent module (`@/lib/agent`) is external to the
repository's sources, so `stepAgent` and `MAX_ITERATIONS` appear as
parameters, and `initializeAgentState` is modelled from the spec.
-/

namespace Agentic

/-- Task status enum, from the `AgentTaskStatus` union used in `page.tsx`:
`pending | in-progress | completed | blocked`. -/
inductive AgentTaskStatus where
  | pending
  | inProgress
  | completed
  | blocked
deriving DecidableEq, Repr

/-- Log topic enum, from the `AgentTopic` union used in `page.tsx`:
`analysis | plan | execution | reflection | summary`. -/
inductive AgentTopic where
  | analysis
  | plan
  | execution
  | reflection
  | summary
deriving DecidableEq, Repr

/-- Assumption confidence enum (`AgentAssumption["confidence"]`):
`low | medium | high`. -/
inductive Confidence where
  | low
  | medium
  | high
deriving DecidableEq, Repr

/-- An `AgentTask` as rendered by `TaskCard`. -/
structure AgentTask where
  id : String
  title : String
  detail : String
  status : AgentTaskStatus
  insights : List String
deriving DecidableEq, Repr

/-- An `AgentAssumption` as rendered in the assumptions card. -/
structure AgentAssumption where
  id : String
  statement : String
  confidence : Confidence
deriving DecidableEq, Repr

/-- An `AgentLog` entry; `timestamp` is a millisecond epoch number. -/
structure AgentLog where
  id : String
  topic : AgentTopic
  message : String
  timestamp : Nat
deriving DecidableEq, Repr

/-- The `AgentMetrics` aggregate rendered in the metric row. -/
structure AgentMetrics where
  completionRate : Nat
  momentum : Nat
  blockedCount : Nat
  focus : String
deriving DecidableEq, Repr

/-- The `AgentState` snapshot consumed by the page component. -/
structure AgentState where
  goal : String
  iteration : Nat
  tasks : List AgentTask
  assumptions : List AgentAssumption
  logs : List AgentLog
  metrics : AgentMetrics
  isComplete : Bool
  isStalled : Bool
  resultSummary : String
deriving DecidableEq, Repr

/-- Modelled from the spec: `initializeAgentState(goal) -> AgentState` lives
in the external `@/lib/agent` module, which is not under the repository's
sources.  Per the spec, the initial state records the submitted goal, has
`iteration = 0` and empty logs, and is the start of the
`idle -> running -> (completed | stalled | ...)` state machine, hence not
yet complete or stalled. -/
def initializeAgentState (goal : String) : AgentState :=
  { goal := goal
    iteration := 0
    tasks := []
    assumptions := []
    logs := []
    metrics := { completionRate := 0, momentum := 0, blockedCount := 0, focus := "" }
    isComplete := false
    isStalled := false
    resultSummary := "" }

/-- The three stop predicates evaluated by the loop body on a freshly
stepped state: completion flag, stall flag, iteration ceiling
(`currentState.iteration >= AgentConstants.MAX_ITERATIONS`). -/
def stopPred (maxIter : Nat) (s : AgentState) : Bool :=
  s.isComplete || s.isStalled || decide (maxIter ≤ s.iteration)

/-- The `while (loopRef.current)` loop of `startAgent` (lines 97-107).
`step` is the external `stepAgent`; `maxIter` is the external
`AgentConstants.MAX_ITERATIONS`; `cont i` is the value the shared
`loopRef.current` flag holds at the `i`-th loop-condition check (the flag
is written by `stopAgent` between iterations); `fuel` bounds the number of
iterations unrolled.  The result is the list of states published by
`setAgentState` inside the loop, in order: `some l` when the loop exits
(by a stop predicate or by the continuation flag), `none` when `fuel` runs
out with the loop still running. -/
def runLoop (step : AgentState → AgentState) (maxIter : Nat) (cont : Nat → Bool) :
    Nat → Nat → AgentState → Option (List AgentState)
  | 0, _, _ => none
  | fuel + 1, i, cur =>
    if cont i then
      let next := step cur
      if next.isComplete || next.isStalled then some [next]
      else if maxIter ≤ next.iteration then some [next]
      else (runLoop step maxIter cont fuel (i + 1) next).map (fun l => next :: l)
    else some []

/-- Strip leading and trailing whitespace from a character list. -/
def trimChars (s : List Char) : List Char :=
  ((s.dropWhile Char.isWhitespace).reverse.dropWhile Char.isWhitespace).reverse

/-- The JavaScript `String.prototype.trim` used by the guards in
`startAgent` and `handleSubmit`: removes leading and trailing whitespace. -/
def jsTrim (s : String) : String := ⟨trimChars s.data⟩

/-- `startAgent(goal)` (lines 85-110): a blank (whitespace-only) goal
returns early publishing nothing; otherwise the initial state is published
first and the loop's publications follow.  The returned list is the full
sequence of states passed to `setAgentState`, in order. -/
def startAgent (step : AgentState → AgentState) (maxIter : Nat) (cont : Nat → Bool)
    (fuel : Nat) (goal : String) : Option (List AgentState) :=
  if jsTrim goal = "" then some []
  else
    (runLoop step maxIter cont fuel 0 (initializeAgentState goal)).map
      (fun l => initializeAgentState goal :: l)

/-- The component-level mutable state touched by `stopAgent` and
`handleSubmit`: the `loopRef` continuation flag, the `isRunning` flag, the
latest published agent state, and the goal textarea contents. -/
structure UiState where
  loopRef : Bool
  isRunning : Bool
  agentState : Option AgentState
  goalInput : String
deriving DecidableEq, Repr

/-- `stopAgent()` (lines 114-117): clears the continuation flag and the
running flag, touching nothing else. -/
def stopAgent (u : UiState) : UiState :=
  { u with loopRef := false, isRunning := false }

/-- `handleSubmit` (lines 119-132): ignores the submission while a run is
active or when the trimmed goal is empty, otherwise starts the agent on
the trimmed goal.  Returns the list of states published by the run. -/
def handleSubmit (step : AgentState → AgentState) (maxIter : Nat) (cont : Nat → Bool)
    (fuel : Nat) (u : UiState) : Option (List AgentState) :=
  if u.isRunning then some []
  else if jsTrim u.goalInput = "" then some []
  else startAgent step maxIter cont fuel (jsTrim u.goalInput)

/-- The ordering the log-feed comparator `(a, b) => a.timestamp - b.timestamp`
induces. -/
def logLe (a b : AgentLog) : Bool :=
  decide (a.timestamp ≤ b.timestamp)

/-- `orderedLogs` (lines 137-142): the display copy of the log collection,
sorted ascending by timestamp; empty when no agent state is present. -/
def orderedLogs (agentState : Option AgentState) : List AgentLog :=
  match agentState with
  | none => []
  | some s => s.logs.mergeSort logLe

/-- `statusLabels` (lines 17-22). -/
def statusLabels : AgentTaskStatus → String
  | .pending => "Pending"
  | .inProgress => "In Progress"
  | .completed => "Completed"
  | .blocked => "Blocked"

/-- `topicLabels` (lines 24-30). -/
def topicLabels : AgentTopic → String
  | .analysis => "Analysis"
  | .plan => "Planning"
  | .execution => "Execution"
  | .reflection => "Reflection"
  | .summary => "Summary"

/-- `confidenceClass` (lines 38-46); CSS-module classes are modelled by
their style keys. -/
def confidenceClass : Confidence → String
  | .high => "confidenceHigh"
  | .medium => "confidenceMedium"
  | .low => "confidenceLow"

/-- `taskStatusClass` (lines 48-59); the `default` branch of the switch
yields the pending class. -/
def taskStatusClass : AgentTaskStatus → String
  | .completed => "taskStatusCompleted"
  | .inProgress => "taskStatusActive"
  | .blocked => "taskStatusBlocked"
  | .pending => "taskStatusPending"

/-- `topicClass` (lines 61-75); `summary` and the `default` branch share
the summary class. -/
def topicClass : AgentTopic → String
  | .analysis => "topicAnalysis"
  | .plan => "topicPlan"
  | .execution => "topicExecution"
  | .reflection => "topicReflection"
  | .summary => "topicSummary"

/-- The `disabled` props of the goal textarea (line 167), the submit button
(line 173) and the stop button (line 181), as functions of the `isRunning`
flag. -/
structure RenderedControls where
  goalDisabled : Bool
  submitDisabled : Bool
  stopDisabled : Bool
deriving DecidableEq, Repr

/-- The control widgets as rendered by `Home` for a given `isRunning`. -/
def renderControls (isRunning : Bool) : RenderedControls :=
  { goalDisabled := isRunning
    submitDisabled := isRunning
    stopDisabled := !isRunning }


/-- How a run of the loop ends: a stop predicate fired (`finished`), the
continuation flag was found cleared (`stopped`), the unrolling bound was
reached with the loop still running (`fuelOut`), or the stepper threw
(`errored`). -/
inductive LoopExit (ε : Type) where
  | finished
  | stopped
  | fuelOut
  | errored (e : ε)
deriving DecidableEq, Repr

/-- The same `while (loopRef.current)` loop as `runLoop`, with the external
stepper allowed to throw (`Except`).  The loop body (lines 97-107) contains
no `try`/`catch`, so a thrown error aborts the iteration before its
`setAgentState` call: nothing is published for the failing call and the
exit records the raw exception.  Returns the published states and the exit
cause. -/
def runLoopE {ε : Type} (step : AgentState → Except ε AgentState) (maxIter : Nat)
    (cont : Nat → Bool) : Nat → Nat → AgentState → List AgentState × LoopExit ε
  | 0, _, _ => ([], .fuelOut)
  | fuel + 1, i, cur =>
    if cont i then
      match step cur with
      | .error e => ([], .errored e)
      | .ok next =>
        if next.isComplete || next.isStalled then ([next], .finished)
        else if maxIter ≤ next.iteration then ([next], .finished)
        else
          let r := runLoopE step maxIter cont fuel (i + 1) next
          (next :: r.1, r.2)
    else ([], .stopped)

/-! ### Concrete instances used to exercise the theorems -/

/-- A minimal stepper satisfying the spec's `iteration increases by one per
step` contract. -/
def incStep (s : AgentState) : AgentState := { s with iteration := s.iteration + 1 }

/-- The trace an uninterrupted `incStep` run with ceiling 2 publishes for
the goal `"go"`. -/
def sampleTrace : List AgentState :=
  [initializeAgentState "go", incStep (initializeAgentState "go"),
    incStep (incStep (initializeAgentState "go"))]

/-- A continuation-flag history in which `stopAgent` was called during the
first iteration: the flag reads `true` at check 0 and `false` from check 1
on. -/
def stopAt1 : Nat → Bool := fun n => decide (n < 1)

/-- A component state mid-run. -/
def runningUi : UiState :=
  { loopRef := true, isRunning := true, agentState := none, goalInput := "go" }

/-- A stepper that always throws. -/
def failStep : AgentState → Except String AgentState := fun _ => Except.error "boom"

/-! ## Loop lemmas -/

theorem runLoop_get_eq_iterate (step : AgentState → AgentState) (maxIter : Nat)
    (cont : Nat → Bool) :
    ∀ (fuel i : Nat) (cur : AgentState) (l : List AgentState),
      runLoop step maxIter cont fuel i cur = some l →
      ∀ (k : Nat) (hk : k < l.length), l.get ⟨k, hk⟩ = step^[k + 1] cur := by
  intro fuel
  induction fuel with
  | zero => intro i cur l h; simp [runLoop] at h
  | succ n ih =>
    intro i cur l h k hk
    simp only [runLoop] at h
    by_cases hc : cont i
    · rw [if_pos hc] at h
      by_cases h1 : (step cur).isComplete || (step cur).isStalled
      · rw [if_pos h1] at h
        injection h with h
        subst h
        have hk0 : k = 0 := by simpa [Nat.lt_one_iff] using hk
        subst hk0
        simp
      · rw [if_neg h1] at h
        by_cases h2 : maxIter ≤ (step cur).iteration
        · rw [if_pos h2] at h
          injection h with h
          subst h
          have hk0 : k = 0 := by simpa [Nat.lt_one_iff] using hk
          subst hk0
          simp
        · rw [if_neg h2, Option.map_eq_some'] at h
          obtain ⟨l', hl', rfl⟩ := h
          rcases k with _ | m
          · simp
          · have hm : m < l'.length := by simpa using hk
            calc (step cur :: l').get ⟨m + 1, hk⟩ = l'.get ⟨m, hm⟩ := rfl
              _ = step^[m + 1] (step cur) := ih (i + 1) (step cur) l' hl' m hm
              _ = step^[m + 1 + 1] cur := (Function.iterate_succ_apply step (m + 1) cur).symm
    · rw [if_neg hc] at h
      injection h with h
      subst h
      simp at hk

theorem runLoop_exits_of_inc (step : AgentState → AgentState) (maxIter : Nat)
    (hstep : ∀ s, (step s).iteration = s.iteration + 1) :
    ∀ (fuel i : Nat) (cur : AgentState),
      cur.iteration < maxIter → maxIter - cur.iteration ≤ fuel →
      ∃ l, runLoop step maxIter (fun _ => true) fuel i cur = some l ∧
        l.length ≤ maxIter - cur.iteration := by
  intro fuel
  induction fuel with
  | zero => intro i cur hlt hle; omega
  | succ n ih =>
    intro i cur hlt hle
    by_cases h1 : (step cur).isComplete || (step cur).isStalled
    · exact ⟨[step cur], by simp [runLoop, h1], by simp; omega⟩
    · by_cases h2 : maxIter ≤ (step cur).iteration
      · exact ⟨[step cur], by simp [runLoop, h1, h2], by simp; omega⟩
      · have hnext : (step cur).iteration = cur.iteration + 1 := hstep cur
        obtain ⟨l', hl', hlen⟩ := ih (i + 1) (step cur) (by omega) (by omega)
        refine ⟨step cur :: l', by simp [runLoop, h1, h2, hl'], by simp; omega⟩

theorem runLoop_nonfinal_not_stop (step : AgentState → AgentState) (maxIter : Nat)
    (cont : Nat → Bool) :
    ∀ (fuel i : Nat) (cur : AgentState) (l : List AgentState),
      runLoop step maxIter cont fuel i cur = some l →
      ∀ (k : Nat) (hk : k + 1 < l.length),
        stopPred maxIter (l.get ⟨k, Nat.lt_of_succ_lt hk⟩) = false := by
  intro fuel
  induction fuel with
  | zero => intro i cur l h; simp [runLoop] at h
  | succ n ih =>
    intro i cur l h k hk
    simp only [runLoop] at h
    by_cases hc : cont i
    · rw [if_pos hc] at h
      by_cases h1 : (step cur).isComplete || (step cur).isStalled
      · rw [if_pos h1] at h
        injection h with h
        subst h
        simp at hk
      · rw [if_neg h1] at h
        by_cases h2 : maxIter ≤ (step cur).iteration
        · rw [if_pos h2] at h
          injection h with h
          subst h
          simp at hk
        · rw [if_neg h2, Option.map_eq_some'] at h
          obtain ⟨l', hl', rfl⟩ := h
          rcases k with _ | m
          · show stopPred maxIter (step cur) = false
            simp only [Bool.or_eq_true, not_or] at h1
            simp [stopPred, h1.1, h1.2, h2]
          · have hm : m + 1 < l'.length := by simpa using hk
            calc stopPred maxIter ((step cur :: l').get ⟨m + 1, _⟩)
                = stopPred maxIter (l'.get ⟨m, Nat.lt_of_succ_lt hm⟩) := rfl
              _ = false := ih (i + 1) (step cur) l' hl' m hm
    · rw [if_neg hc] at h
      injection h with h
      subst h
      simp at hk

theorem runLoop_length_le_of_cont_false (step : AgentState → AgentState) (maxIter : Nat)
    (cont : Nat → Bool) :
    ∀ (fuel i : Nat) (cur : AgentState) (l : List AgentState),
      runLoop step maxIter cont fuel i cur = some l →
      ∀ j : Nat, cont j = false → i ≤ j → l.length ≤ j - i := by
  intro fuel
  induction fuel with
  | zero => intro i cur l h; simp [runLoop] at h
  | succ n ih =>
    intro i cur l h j hj hij
    simp only [runLoop] at h
    by_cases hc : cont i
    · have hij' : i < j := by
        by_contra hnot
        have hij0 : i = j := by omega
        rw [hij0, hj] at hc
        simp at hc
      rw [if_pos hc] at h
      by_cases h1 : (step cur).isComplete || (step cur).isStalled
      · rw [if_pos h1] at h
        injection h with h
        subst h
        simp
        omega
      · rw [if_neg h1] at h
        by_cases h2 : maxIter ≤ (step cur).iteration
        · rw [if_pos h2] at h
          injection h with h
          subst h
          simp
          omega
        · rw [if_neg h2, Option.map_eq_some'] at h
          obtain ⟨l', hl', rfl⟩ := h
          have := ih (i + 1) (step cur) l' hl' j hj (by omega)
          simp
          omega
    · rw [if_neg hc] at h
      injection h with h
      subst h
      simp

theorem runLoopE_errored_last {ε : Type} (step : AgentState → Except ε AgentState)
    (maxIter : Nat) (cont : Nat → Bool) :
    ∀ (fuel i : Nat) (cur : AgentState) (l : List AgentState) (e : ε),
      runLoopE step maxIter cont fuel i cur = (l, LoopExit.errored e) →
      step ((cur :: l).getLast (List.cons_ne_nil cur l)) = Except.error e := by
  intro fuel
  induction fuel with
  | zero => intro i cur l e h; simp [runLoopE] at h
  | succ n ih =>
    intro i cur l e h
    simp only [runLoopE] at h
    by_cases hc : cont i
    · rw [if_pos hc] at h
      split at h
      · rename_i e' heq
        injection h with h1 h2
        injection h2 with h2
        subst h2
        rw [← h1]
        simpa using heq
      · rename_i next heq
        split at h
        · injection h with h1 h2
          exact LoopExit.noConfusion h2
        · split at h
          · injection h with h1 h2
            exact LoopExit.noConfusion h2
          · injection h with hl hex
            subst hl
            have hrec := ih (i + 1) next (runLoopE step maxIter cont n (i + 1) next).1 e
              (by rw [← hex])
            rwa [List.getLast_cons (List.cons_ne_nil _ _)]
    · rw [if_neg hc] at h
      injection h with h1 h2
      exact LoopExit.noConfusion h2

theorem runLoopE_errored_mono {ε : Type} (step : AgentState → Except ε AgentState)
    (maxIter : Nat) (cont : Nat → Bool) :
    ∀ (fuel i : Nat) (cur : AgentState) (l : List AgentState) (e : ε),
      runLoopE step maxIter cont fuel i cur = (l, LoopExit.errored e) →
      ∀ fuel', fuel ≤ fuel' →
        runLoopE step maxIter cont fuel' i cur = (l, LoopExit.errored e) := by
  intro fuel
  induction fuel with
  | zero => intro i cur l e h; simp [runLoopE] at h
  | succ n ih =>
    intro i cur l e h fuel' hf
    obtain ⟨m, rfl⟩ : ∃ m, fuel' = m + 1 := ⟨fuel' - 1, by omega⟩
    simp only [runLoopE] at h ⊢
    by_cases hc : cont i
    · rw [if_pos hc] at h
      rw [if_pos hc]
      split at h
      · rename_i e' heq
        exact h
      · rename_i next heq
        split at h
        · injection h with h1 h2
          exact LoopExit.noConfusion h2
        · split at h
          · injection h with h1 h2
            exact LoopExit.noConfusion h2
          · rename_i hflag hceil
            injection h with hl hex
            have hx := ih (i + 1) next (runLoopE step maxIter cont n (i + 1) next).1 e
              (by rw [← hex]) m (by omega)
            change (if (next.isComplete || next.isStalled) = true
                  then ([next], LoopExit.finished)
                else if maxIter ≤ next.iteration then ([next], LoopExit.finished)
                else (next :: (runLoopE step maxIter cont m (i + 1) next).1,
                  (runLoopE step maxIter cont m (i + 1) next).2)) = (l, LoopExit.errored e)
            rw [if_neg hflag, if_neg hceil, hx]
            rw [← hl]
    · rw [if_neg hc] at h
      injection h with h1 h2
      exact LoopExit.noConfusion h2

/-! ## Claims -/

/-- C1: for every non-blank goal, a successful uninterrupted run publishes
exactly the iterates of the stepper: the state published at position `k`
of the run's publication sequence is `stepAgent` iterated `k` times on
`initializeAgentState goal`; in particular position `0` is the initial
state, published before the first step. -/
theorem c1_published_eq_iterate (step : AgentState → AgentState) (maxIter fuel : Nat)
    (g : String) (L : List AgentState) (k : Nat)
    (hg : jsTrim g ≠ "")
    (hL : startAgent step maxIter (fun _ => true) fuel g = some L)
    (hk : k < L.length) :
    L.get ⟨k, hk⟩ = step^[k] (initializeAgentState g) := by
  unfold startAgent at hL
  rw [if_neg hg, Option.map_eq_some'] at hL
  obtain ⟨l, hl, rfl⟩ := hL
  rcases k with _ | m
  · rfl
  · have hm : m < l.length := by simpa using hk
    calc (initializeAgentState g :: l).get ⟨m + 1, hk⟩ = l.get ⟨m, hm⟩ := rfl
      _ = step^[m + 1] (initializeAgentState g) :=
        runLoop_get_eq_iterate step maxIter (fun _ => true) fuel 0
          (initializeAgentState g) l hl m hm

/-- Witness for C1: a concrete two-step run with ceiling 2. -/
theorem c1_published_eq_iterate_witness :
    jsTrim "go" ≠ "" ∧
    startAgent incStep 2 (fun _ => true) 10 "go" = some sampleTrace ∧
    sampleTrace.get ⟨2, by decide⟩ = incStep^[2] (initializeAgentState "go") :=
  ⟨by decide, by decide,
    c1_published_eq_iterate incStep 2 10 "go" sampleTrace 2 (by decide) (by decide)
      (by decide)⟩

/-- C2: when the stepper increases `iteration` by exactly one per call and
the run starts at iteration 0, an uninterrupted run exits on its own
(`isSome`) after at most `MAX_ITERATIONS` invocations of the stepper (each
loop iteration performs exactly one invocation and one publication), for
any positive ceiling, any goal, and any such stepper, even if no state
ever sets `isComplete` or `isStalled`. -/
theorem c2_step_count_le_max (step : AgentState → AgentState) (maxIter fuel : Nat)
    (g : String)
    (hstep : ∀ s, (step s).iteration = s.iteration + 1)
    (hpos : 0 < maxIter) (hfuel : maxIter ≤ fuel) :
    (runLoop step maxIter (fun _ => true) fuel 0 (initializeAgentState g)).isSome = true ∧
    ((runLoop step maxIter (fun _ => true) fuel 0 (initializeAgentState g)).getD []).length
      ≤ maxIter := by
  obtain ⟨l, hl, hlen⟩ := runLoop_exits_of_inc step maxIter hstep fuel 0
    (initializeAgentState g) (by simpa [initializeAgentState] using hpos)
    (by simpa [initializeAgentState] using hfuel)
  rw [hl]
  exact ⟨rfl, by simpa using hlen⟩

/-- Witness for C2: the iteration-incrementing stepper with ceiling 2 and
fuel 10 exits with at most 2 steps. -/
theorem c2_step_count_le_max_witness :
    0 < 2 ∧ 2 ≤ 10 ∧
    ((runLoop incStep 2 (fun _ => true) 10 0 (initializeAgentState "go")).isSome = true ∧
      ((runLoop incStep 2 (fun _ => true) 10 0 (initializeAgentState "go")).getD []).length
        ≤ 2) :=
  ⟨by decide, by decide,
    c2_step_count_le_max incStep 2 10 "go" (fun s => rfl) (by decide) (by decide)⟩

/-- C3: in every run (any continuation-flag history), every published state
other than the final one fails all three stop predicates: once a published
state is complete, stalled, or at the iteration ceiling, the loop exits
without stepping it, so at most the final published state of a run
satisfies a stop predicate. -/
theorem c3_nonfinal_not_stopped (step : AgentState → AgentState) (maxIter : Nat)
    (cont : Nat → Bool) (fuel : Nat) (g : String) (L : List AgentState) (k : Nat)
    (hpos : 0 < maxIter)
    (hL : startAgent step maxIter cont fuel g = some L)
    (hk : k + 1 < L.length) :
    stopPred maxIter (L.get ⟨k, Nat.lt_of_succ_lt hk⟩) = false := by
  unfold startAgent at hL
  by_cases hg : jsTrim g = ""
  · rw [if_pos hg] at hL
    injection hL with hL
    subst hL
    simp at hk
  · rw [if_neg hg, Option.map_eq_some'] at hL
    obtain ⟨l, hl, rfl⟩ := hL
    rcases k with _ | m
    · show stopPred maxIter (initializeAgentState g) = false
      simp [stopPred, initializeAgentState]
      omega
    · have hm : m + 1 < l.length := by simpa using hk
      calc stopPred maxIter ((initializeAgentState g :: l).get ⟨m + 1, _⟩)
          = stopPred maxIter (l.get ⟨m, Nat.lt_of_succ_lt hm⟩) := rfl
        _ = false := runLoop_nonfinal_not_stop step maxIter cont fuel 0
            (initializeAgentState g) l hl m hm

/-- Witness for C3: in the concrete two-step run, the published state at
position 1 (non-final) satisfies no stop predicate. -/
theorem c3_nonfinal_not_stopped_witness :
    0 < 2 ∧
    startAgent incStep 2 (fun _ => true) 10 "go" = some sampleTrace ∧
    stopPred 2 (sampleTrace.get ⟨1, by decide⟩) = false :=
  ⟨by decide, by decide,
    c3_nonfinal_not_stopped incStep 2 (fun _ => true) 10 "go" sampleTrace 1
      (by decide) (by decide) (by decide)⟩

/-- C4: `stopAgent` clears the continuation flag (and the running flag),
and the flag is consulted only at loop-iteration boundaries: if the flag
reads `false` at the `j`-th boundary check, the run publishes at most `j`
stepped states — the in-flight iteration before the check still completes
and may publish, but no stepper invocation or publication happens from the
`j`-th check on. -/
theorem c4_stop_halts_after_inflight (step : AgentState → AgentState) (maxIter : Nat)
    (cont : Nat → Bool) (fuel j : Nat) (cur : AgentState) (l : List AgentState)
    (u : UiState)
    (hl : runLoop step maxIter cont fuel 0 cur = some l)
    (hj : cont j = false) :
    (stopAgent u).loopRef = false ∧ (stopAgent u).isRunning = false ∧ l.length ≤ j := by
  refine ⟨rfl, rfl, ?_⟩
  simpa using runLoop_length_le_of_cont_false step maxIter cont fuel 0 cur l hl j hj
    (Nat.zero_le j)

/-- Witness for C4: the flag history `stopAt1` (stop requested during the
first iteration) lets exactly one in-flight publication through. -/
theorem c4_stop_halts_after_inflight_witness :
    runLoop incStep 5 stopAt1 10 0 (initializeAgentState "go")
      = some [incStep (initializeAgentState "go")] ∧
    stopAt1 1 = false ∧
    ((stopAgent runningUi).loopRef = false ∧ (stopAgent runningUi).isRunning = false ∧
      [incStep (initializeAgentState "go")].length ≤ 1) :=
  ⟨by decide, by decide,
    c4_stop_halts_after_inflight incStep 5 stopAt1 10 1 (initializeAgentState "go")
      [incStep (initializeAgentState "go")] runningUi (by decide) (by decide)⟩

/-- C5: a submission is a no-op (publishes no state, starts no loop) when a
run is already active or the goal is blank after trimming, and `startAgent`
itself publishes nothing when its goal argument trims to the empty
string. -/
theorem c5_blank_or_running_noop (step : AgentState → AgentState) (maxIter : Nat)
    (cont : Nat → Bool) (fuel : Nat) (u : UiState) (g : String)
    (hu : u.isRunning = true ∨ jsTrim u.goalInput = "")
    (hg : jsTrim g = "") :
    handleSubmit step maxIter cont fuel u = some [] ∧
    startAgent step maxIter cont fuel g = some [] := by
  refine ⟨?_, by simp [startAgent, hg]⟩
  rcases hu with hu | hu
  · simp [handleSubmit, hu]
  · simp [handleSubmit, hu]

/-- Witness for C5: an active run swallows the submission, and a
whitespace-only goal never starts a run. -/
theorem c5_blank_or_running_noop_witness :
    (runningUi.isRunning = true ∨ jsTrim runningUi.goalInput = "") ∧
    jsTrim "   " = "" ∧
    (handleSubmit incStep 2 (fun _ => true) 10 runningUi = some [] ∧
      startAgent incStep 2 (fun _ => true) 10 "   " = some []) :=
  ⟨Or.inl rfl, by decide,
    c5_blank_or_running_noop incStep 2 (fun _ => true) 10 runningUi "   "
      (Or.inl rfl) (by decide)⟩

/-- C6: for every agent state, the derived display list `orderedLogs` is a
permutation of the state's logs and is in non-decreasing timestamp order,
whatever order the entries arrive in; the derivation is a pure function of
the state (the state's own `logs` field is untouched), and an absent state
yields the empty list. -/
theorem c6_ordered_logs_sorted_perm (s : AgentState) :
    orderedLogs none = [] ∧
    (orderedLogs (some s)).Perm s.logs ∧
    (orderedLogs (some s)).Pairwise (fun a b => a.timestamp ≤ b.timestamp) := by
  refine ⟨rfl, List.mergeSort_perm s.logs logLe, ?_⟩
  have h := @List.sorted_mergeSort AgentLog logLe
    (fun a b c hab hbc => by
      simp only [logLe, decide_eq_true_eq] at hab hbc ⊢
      omega)
    (fun a b => by
      simp only [logLe, Bool.or_eq_true, decide_eq_true_eq]
      omega)
    s.logs
  exact h.imp (fun hab => by simpa [logLe] using hab)

/-- C7: when the stepper throws, the error escapes the loop unhandled: the
run's exit is the raw `errored` outcome (not a designed terminal state),
the failing call was applied to the last state published before the
failure, its result is never published, and giving the loop more fuel
publishes nothing further. -/
theorem c7_error_propagates_unhandled {ε : Type} (step : AgentState → Except ε AgentState)
    (maxIter : Nat) (cont : Nat → Bool) (fuel fuel' i : Nat) (cur : AgentState)
    (l : List AgentState) (e : ε)
    (h : runLoopE step maxIter cont fuel i cur = (l, LoopExit.errored e))
    (hf : fuel ≤ fuel') :
    step ((cur :: l).getLast (List.cons_ne_nil cur l)) = Except.error e ∧
    runLoopE step maxIter cont fuel' i cur = (l, LoopExit.errored e) :=
  ⟨runLoopE_errored_last step maxIter cont fuel i cur l e h,
    runLoopE_errored_mono step maxIter cont fuel i cur l e h fuel' hf⟩

/-- Witness for C7: a stepper that throws immediately aborts the run with
nothing published, and the failing call was applied to the initial state. -/
theorem c7_error_propagates_unhandled_witness :
    runLoopE failStep 5 (fun _ => true) 3 0 (initializeAgentState "go")
      = ([], LoopExit.errored "boom") ∧
    3 ≤ 9 ∧
    (failStep ((initializeAgentState "go" :: ([] : List AgentState)).getLast
        (List.cons_ne_nil _ _)) = Except.error "boom" ∧
      runLoopE failStep 5 (fun _ => true) 9 0 (initializeAgentState "go")
        = ([], LoopExit.errored "boom")) :=
  ⟨by decide, by decide,
    c7_error_propagates_unhandled failStep 5 (fun _ => true) 3 9 0
      (initializeAgentState "go") [] "boom" (by decide) (by decide)⟩

/-- C8: the goal textarea and the submit button are disabled exactly when
the running flag is set, and the stop button is disabled exactly when the
running flag is clear. -/
theorem c8_controls_disabled_iff_running (b : Bool) :
    ((renderControls b).goalDisabled = true ↔ b = true) ∧
    ((renderControls b).submitDisabled = true ↔ b = true) ∧
    ((renderControls b).stopDisabled = true ↔ b = false) := by
  cases b <;> simp [renderControls]

/-- C9: the label maps and class helpers are total on their enums: every
task status, confidence level and log topic is mapped to a non-empty
display label and a non-empty style class, with no undefined case. -/
theorem c9_label_class_maps_total :
    (∀ st : AgentTaskStatus, statusLabels st ≠ "" ∧ taskStatusClass st ≠ "") ∧
    (∀ c : Confidence, confidenceClass c ≠ "") ∧
    (∀ t : AgentTopic, topicLabels t ≠ "" ∧ topicClass t ≠ "") := by
  refine ⟨fun st => ?_, fun c => ?_, fun t => ?_⟩
  · cases st <;> exact ⟨by decide, by decide⟩
  · cases c <;> decide
  · cases t <;> exact ⟨by decide, by decide⟩

/-- C10: `stopAgent` is idempotent — any positive number of consecutive
calls equals a single call — and a single call leaves both flags `false`
while changing no other observable field. -/
theorem c10_stop_agent_idempotent (u : UiState) (n : Nat) :
    stopAgent^[n + 1] u = stopAgent u ∧
    (stopAgent u).loopRef = false ∧ (stopAgent u).isRunning = false ∧
    (stopAgent u).agentState = u.agentState ∧ (stopAgent u).goalInput = u.goalInput := by
  refine ⟨?_, rfl, rfl, rfl, rfl⟩
  induction n generalizing u with
  | zero => rfl
  | succ m ih =>
    rw [Function.iterate_succ_apply]
    exact ih (stopAgent u)

end Agentic
